import Mathlib

/-!
# Verification of `pve_exporter/collector.py`

A shallow embedding of the Prometheus collectors for Proxmox VE clusters
(`src/pve_exporter/collector.py`) together with theorems checking the
natural-language specification against the code.

Python values occurring in the records handled by the collectors are
strings, integers, booleans or `None`; a record (a deserialized JSON
object, i.e. a Python `dict`) is modelled as an association list with the
`dict` access semantics spelled out below (`dict.get` returns `None` on a
missing key, `d[k]` and `del d[k]` raise `KeyError`, assignment updates in
place or appends).  Fallible code returns `Except String`.
-/

namespace PveExporter

/-- A Python scalar value as it occurs in API records: `str`, `int` or `bool`.
(`None` / an absent field is modelled by `Option Value = none`.) -/
inductive Value where
  | str : String → Value
  | int : Int → Value
  | bool : Bool → Value
  deriving DecidableEq

/-- A resource record: a Python `dict` mapping field names to values,
modelled as an association list in insertion order (keys are unique in an
actual `dict`). -/
abbrev Record := List (String × Value)

/-- `d.get(k)` on a Python dict: the value at `k`, or `None` when absent. -/
def getKey (r : Record) (k : String) : Option Value :=
  match r with
  | [] => none
  | p :: ps => if p.1 == k then some p.2 else getKey ps k

/-- `k in d` on a Python dict. -/
def hasKey (r : Record) (k : String) : Bool :=
  r.any (fun p => p.1 == k)

/-- `d[k]` on a Python dict: raises `KeyError` when the key is absent. -/
def reqKey (r : Record) (k : String) : Except String Value :=
  match getKey r k with
  | some v => Except.ok v
  | none => Except.error ("KeyError: " ++ k)

/-- `del d[k]` on a Python dict: raises `KeyError` when the key is absent. -/
def delKey (r : Record) (k : String) : Except String Record :=
  if hasKey r k then Except.ok (r.filter (fun p => !(p.1 == k)))
  else Except.error ("KeyError: " ++ k)

/-- `d[k] = v` on a Python dict: updates the entry in place when the key
exists, otherwise appends it at the end (insertion order). -/
def setKey (r : Record) (k : String) (v : Value) : Record :=
  if hasKey r k then r.map (fun p => if p.1 == k then (p.1, v) else p)
  else r ++ [(k, v)]

/-- The field names of a record, in insertion order (`d.keys()`). -/
def keysOf (r : Record) : List String := r.map (·.1)

/-- Python truthiness of a value: non-empty strings, non-zero integers and
`True` are truthy. -/
def truthy : Value → Bool
  | .str s => !(s == "")
  | .int n => !(n == 0)
  | .bool b => b

/-- Python truthiness of a possibly absent value (`None` is falsy). -/
def truthyO : Option Value → Bool
  | none => false
  | some v => truthy v

/-- Python `str(v)` on a scalar value (`str(True) = "True"`, integers render
in base 10). -/
def pyStr : Value → String
  | .str s => s
  | .int n => toString n
  | .bool true => "True"
  | .bool false => "False"

/-- Python `"\x7b:s\x7d".format(v)` applied to a possibly absent value: only a
`str` argument is accepted; `None`, integers and booleans raise `TypeError`. -/
def fmtSO : Option Value → Except String String
  | some (.str s) => Except.ok s
  | _ => Except.error "TypeError: unsupported format argument"

/-- Lexicographic comparison of char lists by code point (Python `<=` on
strings). -/
def charListLe : List Char → List Char → Bool
  | [], _ => true
  | _ :: _, [] => false
  | a :: as, b :: bs =>
    if a.toNat < b.toNat then true
    else if b.toNat < a.toNat then false
    else charListLe as bs

/-- Python `<=` on strings: lexicographic by code point. -/
def strLe (a b : String) : Bool := charListLe a.data b.data

/-- Stable insertion of a string into a sorted list (helper for `pySorted`). -/
def pyInsert (x : String) : List String → List String
  | [] => [x]
  | y :: ys => if strLe x y then x :: y :: ys else y :: pyInsert x ys

/-- Python `sorted()` on a list of strings (stable, lexicographic). -/
def pySorted (l : List String) : List String := l.foldr pyInsert []

/-! ## `LabelingCollectorBase` -/

/-- `LabelingCollectorBase.KNOWN_LABEL_KEYS`. -/
def KNOWN_LABEL_KEYS : List String := ["id", "name", "node", "template", "type"]

/-- The labels dict built by `get_known_labels`: label name to Python value,
where `none` models a `None` entry. -/
abbrev Labels := List (String × Option Value)

/-- `labels.get(k)` on the labels dict: `None` both when the key is absent
and when its value is `None`. -/
def getLabel (ls : Labels) (k : String) : Option Value :=
  match ls with
  | [] => none
  | p :: ps => if p.1 == k then p.2 else getLabel ps k

/-- `k in labels` on the labels dict. -/
def hasLabel (ls : Labels) (k : String) : Bool :=
  ls.any (fun p => p.1 == k)

/-- `labels[k] = v` where `k` is already a key of the labels dict. -/
def setLabel (ls : Labels) (k : String) (v : Option Value) : Labels :=
  ls.map (fun p => if p.1 == k then (p.1, v) else p)

/-- `LabelingCollectorBase.downcast_label_value`: `None` becomes the empty
string, `True`/`False` become `"1"`/`"0"`, everything else `str(val)`. -/
def downcast_label_value : Option Value → String
  | none => ""
  | some (.bool true) => "1"
  | some (.bool false) => "0"
  | some v => pyStr v

/-- `LabelingCollectorBase.get_known_labels`: copies each requested key from
the record (a dict comprehension, so duplicate requested keys collapse to
their first position), then applies the storage/node name overrides and the
cluster id override keyed on the copied `type` label.  The cluster branch
formats `resource.get('name')` with `\x7b:s\x7d`, which raises `TypeError`
unless the name is a string. -/
def get_known_labels (resource : Record) (label_keys : List String) :
    Except String Labels :=
  let keys := label_keys.eraseDups
  let labels : Labels := keys.map (fun k => (k, getKey resource k))
  let labels :=
    if hasLabel labels "name" then
      if getLabel labels "type" == some (Value.str "storage") then
        setLabel labels "name" (getKey resource "storage")
      else if getLabel labels "type" == some (Value.str "node") then
        setLabel labels "name" (getKey resource "node")
      else labels
    else labels
  if hasLabel labels "id" then
    if getLabel labels "type" == some (Value.str "cluster") then
      match fmtSO (getKey resource "name") with
      | Except.ok s =>
          Except.ok (setLabel labels "id" (some (Value.str ("cluster/" ++ s))))
      | Except.error e => Except.error e
    else Except.ok labels
  else Except.ok labels

/-- `LabelingCollectorBase.get_label_values`: extracts the downcast label
values in the order of `label_keys`, defaulting to the sorted label names. -/
def get_label_values (labels : Labels) (label_keys : Option (List String)) :
    List String :=
  let keys : List String :=
    match label_keys with
    | none => pySorted (labels.map (fun p => p.1))
    | some ks => ks
  keys.map (fun k => downcast_label_value (getLabel labels k))

/-! ## Metric families and loop helpers -/

/-- `prometheus_client.core.GaugeMetricFamily`: a name, a help string, the
declared label names, and the samples added by `add_metric` — each a list of
label values together with the (loosely typed) sample value, both kept as
the Python objects that were passed in. -/
structure GaugeMetricFamily where
  name : String
  help : String
  labels : List String
  samples : List (List Value × Value)
  deriving DecidableEq

/-- `add_metric`: appends one sample. -/
def addMetric (f : GaugeMetricFamily) (s : List Value × Value) :
    GaugeMetricFamily :=
  { f with samples := f.samples ++ [s] }

/-- A Python `for` loop threading a state, where the body may raise:
stops at the first error. -/
def foldE (f : σ → α → Except String σ) : σ → List α → Except String σ
  | s, [] => Except.ok s
  | s, a :: as =>
    match f s a with
    | Except.ok s' => foldE f s' as
    | Except.error e => Except.error e

/-- A Python comprehension whose body may raise: stops at the first error. -/
def mapE (f : α → Except String β) : List α → Except String (List β)
  | [] => Except.ok []
  | a :: as =>
    match f a with
    | Except.ok b =>
      match mapE f as with
      | Except.ok bs => Except.ok (b :: bs)
      | Except.error e => Except.error e
    | Except.error e => Except.error e

/-! ## `StatusCollector` -/

/-- `StatusCollector.SUPPORTED_UP_RES_TYPES`. -/
def SUPPORTED_UP_RES_TYPES : List String :=
  ["qemu", "lxc", "node", "storage", "vm", "cluster"]

/-- Membership test `entry.get('type') in SUPPORTED_UP_RES_TYPES`: a Python
object is in a list of strings exactly when it is an equal string. -/
def typeSupported (t : Option Value) : Bool :=
  match t with
  | some (.str s) => SUPPORTED_UP_RES_TYPES.contains s
  | _ => false

/-- `status in ['available', 'online', 'running']` for a possibly absent
Python value. -/
def statusIn (status : Option Value) : Bool :=
  match status with
  | some (.str s) => ["available", "online", "running"].contains s
  | _ => false

/-- Python `a or b` where `a` is a possibly absent object: returns `a` when
truthy, else `b`. -/
def pyOr (a : Option Value) (b : Value) : Value :=
  match a with
  | none => b
  | some v => if truthy v then v else b

/-- `StatusCollector.is_entry_up`: raises unless the entry's `type` is a
supported string (the error message itself is built with `\x7b:s\x7d`, so a
non-string type raises `TypeError` instead of `ValueError` — an error
either way); otherwise returns `quorate or online or status in [...]`,
which by Python `or` semantics is the first truthy operand. -/
def is_entry_up (entry : Record) : Except String Value :=
  if typeSupported (getKey entry "type") then
    Except.ok
      (pyOr (getKey entry "quorate")
        (pyOr (getKey entry "online")
          (Value.bool (statusIn (getKey entry "status")))))
  else
    match getKey entry "type" with
    | some (.str s) =>
        Except.error ("ValueError: Got unexpected status entry type " ++ s)
    | _ => Except.error "TypeError: unsupported format argument"

/-- One iteration of the loop in `StatusCollector.collect`: the state is the
`processed_ids` set (a set of Python objects — the `id` label values, which
may be `None`) and the samples added so far.  The source adds the id to the
set before calling `is_entry_up`; since an exception aborts the whole
scrape, threading the updated set only on success is observationally the
same. -/
def statusStep (st : List (Option Value) × List (List Value × Value))
    (entry : Record) :
    Except String (List (Option Value) × List (List Value × Value)) :=
  match get_known_labels entry KNOWN_LABEL_KEYS with
  | Except.error e => Except.error e
  | Except.ok labels =>
    if getLabel labels "id" ∈ st.1 then Except.ok st
    else
      match is_entry_up entry with
      | Except.error e => Except.error e
      | Except.ok up =>
        Except.ok (getLabel labels "id" :: st.1,
          st.2 ++
            [((get_label_values labels (some KNOWN_LABEL_KEYS)).map Value.str,
              up)])

/-- `StatusCollector.collect`, applied to the two already-fetched record
lists (`cluster.resources.get()` and `cluster.status.get()`), chained in
that order. -/
def statusCollect (resources status : List Record) :
    Except String GaugeMetricFamily :=
  match foldE statusStep ([], []) (resources ++ status) with
  | Except.ok st =>
    Except.ok
      { name := "pve_up"
        help := "Node/VM/CT-Status is online/running"
        labels := KNOWN_LABEL_KEYS
        samples := st.2 }
  | Except.error e => Except.error e

/-- Keeps, of a record list, the first record for each identity computed by
`idf`, skipping records whose identity is in `seen` or occurred earlier
(the specification's dedup rule, for comparison with `statusCollect`). -/
def dedupFirstBy (idf : Record → Option Value) :
    List (Option Value) → List Record → List Record
  | _, [] => []
  | seen, r :: rs =>
    if idf r ∈ seen then dedupFirstBy idf seen rs
    else r :: dedupFirstBy idf (idf r :: seen) rs

/-- The sample emitted by the status collector for one record: label values
in `KNOWN_LABEL_KEYS` order, and the `is_entry_up` result as value. -/
def statusSample (lbl : Labels) (up : Value) : List Value × Value :=
  ((get_label_values lbl (some KNOWN_LABEL_KEYS)).map Value.str, up)

/-- A field value that behaves like a boolean flag: absent, an actual
boolean, or the integer `0`/`1` (what the Proxmox API uses for `quorate`
and `online`). -/
def boolish (x : Option Value) : Prop :=
  x = none ∨ (∃ b, x = some (Value.bool b)) ∨ x = some (Value.int 0) ∨
    x = some (Value.int 1)

/-! ## `VersionCollector` -/

/-- `VersionCollector.LABEL_WHITELIST`. -/
def LABEL_WHITELIST : List String := ["release", "repoid", "version"]

/-- `VersionCollector.collect`, applied to the already-fetched version
record: filters the record's items to the whitelist, then unpacks
`zip(*version.items())` into the label names and label values — which
raises `ValueError` when the filtered dict is empty — and emits a single
sample with value `1`. -/
def versionCollect (version : Record) : Except String GaugeMetricFamily :=
  let filtered := version.filter (fun p => LABEL_WHITELIST.contains p.1)
  match filtered with
  | [] => Except.error "ValueError: not enough values to unpack"
  | _ :: _ =>
    Except.ok
      { name := "pve_version_info"
        help := "Proxmox VE version info"
        labels := filtered.map (fun p => p.1)
        samples := [(filtered.map (fun p => p.2), Value.int 1)] }

/-! ## `ClusterNodeCollector` and `ClusterInfoCollector` -/

/-- The filter `entry['type'] == t` used by both schema collectors: direct
indexing, so an entry without a `type` field raises `KeyError`. -/
def typeTag (e : Record) : Except String (Record × Value) :=
  match reqKey e "type" with
  | Except.ok t => Except.ok (e, t)
  | Except.error err => Except.error err

/-- `ClusterNodeCollector.collect`, applied to the already-fetched
`cluster.status.get()` list: keeps the `type == 'node'` entries, deletes
the `type` and `online` keys from each (raising `KeyError` when absent),
takes the first record's remaining keys as the label schema, and emits one
sample per record valued `1` with `str()`-converted label values (direct
indexing, raising `KeyError` on a record missing a schema key).  With no
node entry, nothing is emitted. -/
def clusterNodeCollect (status : List Record) :
    Except String (List GaugeMetricFamily) :=
  match mapE typeTag status with
  | Except.error e => Except.error e
  | Except.ok tagged =>
    let nodes := (tagged.filter (fun p => p.2 == Value.str "node")).map
      (fun p => p.1)
    match nodes with
    | [] => Except.ok []
    | _ :: _ =>
      match mapE (fun n =>
          match delKey n "type" with
          | Except.ok n1 => delKey n1 "online"
          | Except.error e => Except.error e) nodes with
      | Except.error e => Except.error e
      | Except.ok stripped =>
        let labels := keysOf (stripped.headD [])
        match mapE (fun n =>
            match mapE (fun k =>
                match reqKey n k with
                | Except.ok v => Except.ok (pyStr v)
                | Except.error e => Except.error e) labels with
            | Except.ok vs => Except.ok (vs.map Value.str, Value.int 1)
            | Except.error e => Except.error e) stripped with
        | Except.error e => Except.error e
        | Except.ok samples =>
          Except.ok
            [{ name := "pve_node_info"
               help := "Node info"
               labels := labels
               samples := samples }]

/-- `ClusterInfoCollector.collect`, applied to the already-fetched
`cluster.status.get()` list: keeps the `type == 'cluster'` entries, deletes
`type`, rewrites `id := 'cluster/' + name` (raising `KeyError` when `name`
is absent and `TypeError` when it is not a string) and deletes `name`,
then derives the schema from the first record and emits one sample per
record valued `1`, as in `clusterNodeCollect`. -/
def clusterInfoCollect (status : List Record) :
    Except String (List GaugeMetricFamily) :=
  match mapE typeTag status with
  | Except.error e => Except.error e
  | Except.ok tagged =>
    let clusters := (tagged.filter (fun p => p.2 == Value.str "cluster")).map
      (fun p => p.1)
    match clusters with
    | [] => Except.ok []
    | _ :: _ =>
      match mapE (fun c =>
          match delKey c "type" with
          | Except.ok c1 =>
            match reqKey c1 "name" with
            | Except.ok n =>
              match fmtSO (some n) with
              | Except.ok s =>
                delKey (setKey c1 "id" (Value.str ("cluster/" ++ s))) "name"
              | Except.error e => Except.error e
            | Except.error e => Except.error e
          | Except.error e => Except.error e) clusters with
      | Except.error e => Except.error e
      | Except.ok rewritten =>
        let labels := keysOf (rewritten.headD [])
        match mapE (fun c =>
            match mapE (fun k =>
                match reqKey c k with
                | Except.ok v => Except.ok (pyStr v)
                | Except.error e => Except.error e) labels with
            | Except.ok vs => Except.ok (vs.map Value.str, Value.int 1)
            | Except.error e => Except.error e) rewritten with
        | Except.error e => Except.error e
        | Except.ok samples =>
          Except.ok
            [{ name := "pve_cluster_info"
               help := "Cluster info"
               labels := labels
               samples := samples }]

/-! ## `ClusterResourcesCollector` -/

/-- The `metrics` table of `ClusterResourcesCollector.collect`, in source
order: routed field name, family name, family help string. -/
def METRICS_TABLE : List (String × String × String) :=
  [("maxdisk", "pve_disk_size_bytes", "Size of storage device"),
   ("disk", "pve_disk_usage_bytes", "Disk usage in bytes"),
   ("maxmem", "pve_memory_size_bytes", "Size of memory"),
   ("mem", "pve_memory_usage_bytes", "Memory usage in bytes"),
   ("netout", "pve_network_transmit_bytes",
     "Number of bytes transmitted over the network"),
   ("netin", "pve_network_receive_bytes",
     "Number of bytes received over the network"),
   ("diskwrite", "pve_disk_write_bytes",
     "Number of bytes written to storage"),
   ("diskread", "pve_disk_read_bytes", "Number of bytes read from storage"),
   ("cpu", "pve_cpu_usage_ratio",
     "CPU usage (value between 0.0 and pve_cpu_usage_limit)"),
   ("maxcpu", "pve_cpu_usage_limit", "Maximum allowed CPU usage"),
   ("uptime", "pve_uptime_seconds", "Number of seconds since the last boot")]

/-- An empty gauge family of the numeric routing table. -/
def mkNumFam (m : String × String × String) : GaugeMetricFamily :=
  { name := m.2.1, help := m.2.2, labels := KNOWN_LABEL_KEYS, samples := [] }

/-- The numeric families keyed by routed field name, as at the top of
`ClusterResourcesCollector.collect`. -/
def numInit : List (String × GaugeMetricFamily) :=
  METRICS_TABLE.map (fun m => (m.1, mkNumFam m))

/-- The empty `pve_guest_info` family. -/
def guestInit : GaugeMetricFamily :=
  { name := "pve_guest_info", help := "VM/CT info", labels := KNOWN_LABEL_KEYS,
    samples := [] }

/-- The empty `pve_storage_info` family. -/
def storageInit : GaugeMetricFamily :=
  { name := "pve_storage_info", help := "Storage info",
    labels := KNOWN_LABEL_KEYS, samples := [] }

/-- `key in metrics` for the numeric routing table. -/
def isRoutedKey (k : String) : Bool :=
  METRICS_TABLE.any (fun m => m.1 == k)

/-- `metrics[k].add_metric(label_values, v)` on the keyed family list. -/
def addNumeric (fams : List (String × GaugeMetricFamily)) (k : String)
    (s : List Value × Value) : List (String × GaugeMetricFamily) :=
  fams.map (fun p => if p.1 == k then (p.1, addMetric p.2 s) else p)

/-- `restype in info_lookup` with `info_lookup`'s guest aliases. -/
def isGuestType (t : Option Value) : Bool :=
  t == some (Value.str "lxc") || t == some (Value.str "qemu")

/-- One iteration of the resource loop in
`ClusterResourcesCollector.collect`: derives the label values (default,
i.e. sorted, key order), adds the info sample when the type is a guest or
storage type, then walks the record's items routing each field present in
the numeric table. -/
def resourcesStep
    (st : List (String × GaugeMetricFamily) × GaugeMetricFamily ×
      GaugeMetricFamily)
    (resource : Record) :
    Except String
      (List (String × GaugeMetricFamily) × GaugeMetricFamily ×
        GaugeMetricFamily) :=
  match get_known_labels resource KNOWN_LABEL_KEYS with
  | Except.error e => Except.error e
  | Except.ok labels =>
    let lv := (get_label_values labels none).map Value.str
    let restype := getKey resource "type"
    let guest :=
      if isGuestType restype then addMetric st.2.1 (lv, Value.int 1)
      else st.2.1
    let storage :=
      if restype == some (Value.str "storage") then
        addMetric st.2.2 (lv, Value.int 1)
      else st.2.2
    let numeric := resource.foldl
      (fun fams p =>
        if isRoutedKey p.1 then addNumeric fams p.1 (lv, p.2) else fams)
      st.1
    Except.ok (numeric, guest, storage)

/-- `ClusterResourcesCollector.collect`, applied to the already-fetched
`cluster.resources.get()` list.  The output chains the numeric families in
table order and then the two info families, all emitted even when empty. -/
def clusterResourcesCollect (resources : List Record) :
    Except String (List GaugeMetricFamily) :=
  match foldE resourcesStep (numInit, guestInit, storageInit) resources with
  | Except.ok st => Except.ok (st.1.map (fun p => p.2) ++ [st.2.1, st.2.2])
  | Except.error e => Except.error e

/-! ## Specification-side forms for the resources collector -/

/-- The label values computed per resource in
`ClusterResourcesCollector.collect` (default, i.e. sorted, key order). -/
def lvOf (lbl : Labels) : List Value :=
  (get_label_values lbl none).map Value.str

/-- The numeric samples one record contributes to the family routed from
field `k` (in terms of the raw item list). -/
def routeContrib (lv : List Value) (r : Record) (k : String) :
    List (List Value × Value) :=
  if isRoutedKey k then
    (r.filter (fun p => p.1 == k)).map (fun p => (lv, p.2))
  else []

/-- The numeric family table with prescribed per-key samples. -/
def numState (S : String → List (List Value × Value)) :
    List (String × GaugeMetricFamily) :=
  METRICS_TABLE.map (fun m =>
    (m.1,
      { name := m.2.1
        help := m.2.2
        labels := KNOWN_LABEL_KEYS
        samples := S m.1 }))

/-- The numeric samples a record list contributes to the family routed from
field `k`, in record order. -/
def numericContrib (lbls : Record → Labels) :
    List Record → String → List (List Value × Value)
  | [], _ => []
  | r :: rs, k => routeContrib (lvOf (lbls r)) r k ++ numericContrib lbls rs k

/-- The guest-info samples of a record list (`lxc` and `qemu` records). -/
def guestContrib (lbls : Record → Labels) :
    List Record → List (List Value × Value)
  | [] => []
  | r :: rs =>
    (if isGuestType (getKey r "type") then [(lvOf (lbls r), Value.int 1)]
     else []) ++ guestContrib lbls rs

/-- The storage-info samples of a record list. -/
def storageContrib (lbls : Record → Labels) :
    List Record → List (List Value × Value)
  | [] => []
  | r :: rs =>
    (if getKey r "type" == some (Value.str "storage") then
      [(lvOf (lbls r), Value.int 1)]
     else []) ++ storageContrib lbls rs

/-- The sparse sample list for field `k`: one sample per record that
carries the field, with the record's own label values and the field's
value; records lacking the field contribute nothing. -/
def sparseSamples (lbls : Record → Labels) (resources : List Record)
    (k : String) : List (List Value × Value) :=
  resources.filterMap (fun r =>
    (getKey r k).map (fun v => (lvOf (lbls r), v)))

/-! ## Specification-side forms for the schema collectors -/

/-- Total record lookup with a junk default (used only at keys known to be
present). -/
def valD (r : Record) (k : String) : Value := (getKey r k).getD (Value.str "")

/-- The `type == 'node'` entries of the cluster-status list. -/
def nodesOf (status : List Record) : List Record :=
  status.filter (fun e => getKey e "type" == some (Value.str "node"))

/-- The `type == 'cluster'` entries of the cluster-status list. -/
def clustersOf (status : List Record) : List Record :=
  status.filter (fun e => getKey e "type" == some (Value.str "cluster"))

/-- A node record after the node collector strips the bookkeeping fields
`type` and `online`. -/
def stripNode (n : Record) : Record :=
  (n.filter (fun p => !(p.1 == "type"))).filter (fun p => !(p.1 == "online"))

/-- The string value of a cluster record's `name` field (junk default when
absent or not a string). -/
def clusterNameStr (c : Record) : String :=
  match getKey c "name" with
  | some (Value.str s) => s
  | _ => ""

/-- A cluster record after the cluster collector strips `type`, rewrites
`id := "cluster/" + name` and drops `name`. -/
def stripCluster (c : Record) : Record :=
  (setKey (c.filter (fun p => !(p.1 == "type"))) "id"
    (Value.str ("cluster/" ++ clusterNameStr c))).filter
      (fun p => !(p.1 == "name"))

/-! ## Basic lemmas about the record and label operations -/

theorem truthy_pyOr (a : Option Value) (b : Value) :
    truthy (pyOr a b) = (truthyO a || truthy b) := by
  cases a with
  | none => rfl
  | some v =>
    cases h : truthy v with
    | true => simp [pyOr, truthyO, h]
    | false => simp [pyOr, truthyO, h]

theorem getLabel_copy (r : Record) (ks : List String) (k : String) :
    getLabel (ks.map (fun k' => (k', getKey r k'))) k =
      if k ∈ ks then getKey r k else none := by
  induction ks with
  | nil => rfl
  | cons a as ih =>
    simp only [List.map_cons, getLabel]
    by_cases h : a = k
    · subst h; simp
    · rw [if_neg (by simpa using h), ih]
      simp [Ne.symm h]

theorem hasLabel_copy (r : Record) (ks : List String) (k : String) :
    hasLabel (ks.map (fun k' => (k', getKey r k'))) k = true ↔ k ∈ ks := by
  simp [hasLabel, List.any_eq_true]

theorem setLabel_cons (p : String × Option Value) (ps : Labels) (k : String)
    (v : Option Value) :
    setLabel (p :: ps) k v =
      (if p.1 = k then (p.1, v) else p) :: setLabel ps k v := by
  simp [setLabel]

theorem hasLabel_setLabel (ls : Labels) (k k' : String) (v : Option Value) :
    hasLabel (setLabel ls k v) k' = hasLabel ls k' := by
  induction ls with
  | nil => rfl
  | cons p ps ih =>
    rw [setLabel_cons]
    simp only [hasLabel, List.any_cons] at ih ⊢
    by_cases hp : p.1 = k
    · rw [if_pos hp, ih]
    · rw [if_neg hp, ih]

theorem getLabel_setLabel_self (ls : Labels) (k : String) (v : Option Value)
    (h : hasLabel ls k = true) : getLabel (setLabel ls k v) k = v := by
  induction ls with
  | nil => simp [hasLabel] at h
  | cons p ps ih =>
    rw [setLabel_cons]
    by_cases hp : p.1 = k
    · simp [getLabel, if_pos hp, hp]
    · rw [if_neg hp]
      simp only [getLabel]
      rw [if_neg (by simpa using hp)]
      apply ih
      simp only [hasLabel, List.any_cons] at h
      rcases Bool.or_eq_true_iff.mp h with h1 | h1
      · exact absurd (by simpa using h1) hp
      · exact h1

theorem getLabel_setLabel_ne (ls : Labels) (k k' : String) (v : Option Value)
    (h : k' ≠ k) : getLabel (setLabel ls k v) k' = getLabel ls k' := by
  induction ls with
  | nil => rfl
  | cons p ps ih =>
    rw [setLabel_cons]
    by_cases hp : p.1 = k
    · rw [if_pos hp]
      simp only [getLabel]
      rw [if_neg (by simp [hp, Ne.symm h]), if_neg (by simp [hp, Ne.symm h]), ih]
    · rw [if_neg hp]
      simp only [getLabel]
      by_cases hk : p.1 = k'
      · simp [hk]
      · rw [if_neg (by simpa using hk), if_neg (by simpa using hk), ih]

/-! ## Lemmas about the status collector loop -/

theorem foldE_append_ok {σ α : Type} (f : σ → α → Except String σ)
    (s s' : σ) (l1 l2 : List α) (h : foldE f s l1 = Except.ok s') :
    foldE f s (l1 ++ l2) = foldE f s' l2 := by
  induction l1 generalizing s with
  | nil =>
    simp only [foldE] at h
    cases h
    simp
  | cons a as ih =>
    simp only [foldE] at h ⊢
    cases hf : f s a with
    | ok s1 => rw [hf] at h; exact ih s1 h
    | error e => rw [hf] at h; cases h

theorem dedupFirstBy_map_prop (idf : Record → Option Value)
    (seen : List (Option Value)) (l : List Record) :
    ((dedupFirstBy idf seen l).map idf).Nodup ∧
    ∀ i ∈ (dedupFirstBy idf seen l).map idf, i ∉ seen := by
  induction l generalizing seen with
  | nil => simp [dedupFirstBy]
  | cons r rs ih =>
    by_cases h : idf r ∈ seen
    · simpa [dedupFirstBy, h] using ih seen
    · simp only [dedupFirstBy, if_neg h, List.map_cons]
      obtain ⟨ihn, ihs⟩ := ih (idf r :: seen)
      refine ⟨List.nodup_cons.mpr ⟨?_, ihn⟩, ?_⟩
      · intro hmem
        exact (ihs _ hmem) (List.mem_cons_self _ _)
      · intro i hi
        rcases List.mem_cons.mp hi with rfl | hi'
        · exact h
        · intro hseen
          exact (ihs i hi') (List.mem_cons_of_mem _ hseen)

theorem dedupFirstBy_covers (idf : Record → Option Value)
    (seen : List (Option Value)) (l : List Record) :
    ∀ r ∈ l, idf r ∈ seen ∨ idf r ∈ (dedupFirstBy idf seen l).map idf := by
  induction l generalizing seen with
  | nil => simp
  | cons r' rs ih =>
    intro r hr
    rcases List.mem_cons.mp hr with rfl | hr'
    · by_cases h : idf r ∈ seen
      · exact Or.inl h
      · right
        simp [dedupFirstBy, if_neg h]
    · by_cases h : idf r' ∈ seen
      · simpa [dedupFirstBy, h] using ih seen r hr'
      · rcases ih (idf r' :: seen) r hr' with hs | hm
        · rcases List.mem_cons.mp hs with he | hs'
          · right
            simp [dedupFirstBy, if_neg h, he]
          · exact Or.inl hs'
        · right
          simp only [dedupFirstBy, if_neg h, List.map_cons, List.mem_cons]
          exact Or.inr hm

theorem dedupFirstBy_mem (idf : Record → Option Value)
    (seen : List (Option Value)) (l : List Record) :
    ∀ r ∈ dedupFirstBy idf seen l, r ∈ l := by
  induction l generalizing seen with
  | nil => simp [dedupFirstBy]
  | cons r' rs ih =>
    intro r hr
    by_cases h : idf r' ∈ seen
    · simp only [dedupFirstBy, if_neg, if_pos h] at hr
      exact List.mem_cons_of_mem _ (ih seen r hr)
    · simp only [dedupFirstBy, if_neg h] at hr
      rcases List.mem_cons.mp hr with rfl | hr'
      · exact List.mem_cons_self _ _
      · exact List.mem_cons_of_mem _ (ih _ r hr')

theorem statusFold_spec (lbls : Record → Labels) (ups : Record → Value)
    (l : List Record) (seen : List (Option Value))
    (acc : List (List Value × Value))
    (h1 : ∀ r ∈ l, get_known_labels r KNOWN_LABEL_KEYS = Except.ok (lbls r))
    (h2 : ∀ r ∈ dedupFirstBy (fun r => getLabel (lbls r) "id") seen l,
      is_entry_up r = Except.ok (ups r)) :
    foldE statusStep (seen, acc) l =
      Except.ok
        (((dedupFirstBy (fun r => getLabel (lbls r) "id") seen l).map
            (fun r => getLabel (lbls r) "id")).reverse ++ seen,
          acc ++ (dedupFirstBy (fun r => getLabel (lbls r) "id") seen l).map
            (fun r => statusSample (lbls r) (ups r))) := by
  induction l generalizing seen acc with
  | nil => simp [foldE, dedupFirstBy]
  | cons r rs ih =>
    have hr : get_known_labels r KNOWN_LABEL_KEYS = Except.ok (lbls r) :=
      h1 r (List.mem_cons_self _ _)
    by_cases hid : getLabel (lbls r) "id" ∈ seen
    · have hd : dedupFirstBy (fun r => getLabel (lbls r) "id") seen (r :: rs) =
          dedupFirstBy (fun r => getLabel (lbls r) "id") seen rs := by
        simp [dedupFirstBy, hid]
      rw [hd] at h2 ⊢
      have hstep : statusStep (seen, acc) r = Except.ok (seen, acc) := by
        simp only [statusStep, hr]
        rw [if_pos hid]
      simp only [foldE, hstep]
      exact ih seen acc (fun x hx => h1 x (List.mem_cons_of_mem _ hx)) h2
    · have hd : dedupFirstBy (fun r => getLabel (lbls r) "id") seen (r :: rs) =
          r :: dedupFirstBy (fun r => getLabel (lbls r) "id")
            (getLabel (lbls r) "id" :: seen) rs := by
        simp [dedupFirstBy, hid]
      have hup : is_entry_up r = Except.ok (ups r) := by
        apply h2
        rw [hd]
        exact List.mem_cons_self _ _
      have hstep : statusStep (seen, acc) r =
          Except.ok (getLabel (lbls r) "id" :: seen,
            acc ++ [statusSample (lbls r) (ups r)]) := by
        simp only [statusStep, hr]
        rw [if_neg hid, hup]
        rfl
      simp only [foldE, hstep]
      rw [ih (getLabel (lbls r) "id" :: seen)
        (acc ++ [statusSample (lbls r) (ups r)])
        (fun x hx => h1 x (List.mem_cons_of_mem _ hx))
        (fun x hx => h2 x (by rw [hd]; exact List.mem_cons_of_mem _ hx)), hd]
      simp [List.append_assoc]

/-! ## Lemmas about record operations and `mapE` -/

theorem hasKey_iff (r : Record) (k : String) :
    hasKey r k = true ↔ ∃ v, getKey r k = some v := by
  induction r with
  | nil => simp [hasKey, getKey]
  | cons p ps ih =>
    simp only [hasKey, List.any_cons, Bool.or_eq_true, getKey]
    by_cases h : p.1 = k
    · simp [h]
    · simp only [beq_iff_eq, h, false_or]
      rw [if_neg (by simp [h])]
      exact ih

theorem mem_keysOf_iff (r : Record) (k : String) :
    k ∈ keysOf r ↔ hasKey r k = true := by
  simp [keysOf, hasKey, List.any_eq_true, List.mem_map]

theorem getKey_filter_ne (r : Record) (k k' : String) (h : k ≠ k') :
    getKey (r.filter (fun p => !(p.1 == k'))) k = getKey r k := by
  induction r with
  | nil => rfl
  | cons p ps ih =>
    rw [List.filter_cons]
    by_cases hp : p.1 = k'
    · rw [if_neg (by simp [hp])]
      simp only [getKey]
      rw [if_neg (by simp [hp, Ne.symm h]), ih]
    · rw [if_pos (by simp [hp])]
      simp only [getKey]
      by_cases hk : p.1 = k
      · simp [hk]
      · rw [if_neg (by simpa using hk), if_neg (by simpa using hk), ih]

theorem hasKey_filter_ne (r : Record) (k k' : String) (h : k ≠ k') :
    hasKey (r.filter (fun p => !(p.1 == k'))) k = hasKey r k := by
  by_cases hk : hasKey r k = true
  · obtain ⟨v, hv⟩ := (hasKey_iff r k).mp hk
    rw [hk]
    exact (hasKey_iff _ k).mpr ⟨v, by rw [getKey_filter_ne r k k' h, hv]⟩
  · rw [Bool.not_eq_true] at hk
    rw [hk]
    by_contra hne
    have : hasKey (r.filter (fun p => !(p.1 == k'))) k = true := by
      cases hb : hasKey (r.filter (fun p => !(p.1 == k'))) k
      · exact absurd hb hne
      · rfl
    obtain ⟨v, hv⟩ := (hasKey_iff _ k).mp this
    rw [getKey_filter_ne r k k' h] at hv
    have := (hasKey_iff r k).mpr ⟨v, hv⟩
    rw [hk] at this
    exact Bool.false_ne_true this

theorem hasKey_map_preserve (r : Record) (k k' : String) (v : Value) :
    hasKey (r.map (fun p => if p.1 == k then (p.1, v) else p)) k' =
      hasKey r k' := by
  induction r with
  | nil => rfl
  | cons p ps ih =>
    simp only [List.map_cons, hasKey, List.any_cons] at ih ⊢
    by_cases hp : (p.1 == k) = true
    · rw [if_pos hp, ih]
    · rw [if_neg hp, ih]

theorem hasKey_setKey_ne (r : Record) (k k' : String) (v : Value)
    (h : k' ≠ k) : hasKey (setKey r k v) k' = hasKey r k' := by
  simp only [setKey]
  by_cases hr : hasKey r k = true
  · rw [if_pos hr]
    exact hasKey_map_preserve r k k' v
  · rw [if_neg hr]
    simp [hasKey, List.any_append, Ne.symm h]

theorem mapE_congr_ok {α β : Type} (f : α → Except String β) (g : α → β)
    (l : List α) (h : ∀ a ∈ l, f a = Except.ok (g a)) :
    mapE f l = Except.ok (l.map g) := by
  induction l with
  | nil => rfl
  | cons a as ih =>
    simp only [mapE, h a (List.mem_cons_self _ _),
      ih (fun x hx => h x (List.mem_cons_of_mem _ hx)), List.map_cons]

/-! ## Lemmas about the resources collector loop -/

theorem addNumeric_numState (S : String → List (List Value × Value))
    (k : String) (s : List Value × Value) :
    addNumeric (numState S) k s =
      numState (fun k' => if k' = k then S k' ++ [s] else S k') := by
  simp only [addNumeric, numState, List.map_map]
  apply List.map_congr_left
  intro m _
  by_cases h : m.1 = k
  · simp [Function.comp, h, addMetric]
  · simp [Function.comp, h]

theorem resourceRoute (r : Record) (lv : List Value)
    (S : String → List (List Value × Value)) :
    r.foldl (fun fams p =>
        if isRoutedKey p.1 then addNumeric fams p.1 (lv, p.2) else fams)
      (numState S) =
      numState (fun k => S k ++ routeContrib lv r k) := by
  induction r generalizing S with
  | nil =>
    simp only [List.foldl_nil]
    exact congrArg numState (funext fun k => by simp [routeContrib])
  | cons p ps ih =>
    simp only [List.foldl_cons]
    by_cases h : isRoutedKey p.1 = true
    · rw [if_pos h, addNumeric_numState, ih]
      refine congrArg numState (funext fun k => ?_)
      by_cases hk : k = p.1
      · subst hk
        rw [if_pos rfl]
        simp [routeContrib, h, List.filter_cons, List.append_assoc]
      · rw [if_neg hk]
        by_cases hr : isRoutedKey k = true
        · simp [routeContrib, hr, List.filter_cons,
            show ¬(p.1 == k) = true by simpa using fun e => hk e.symm]
        · simp [routeContrib, hr]
    · rw [if_neg h, ih]
      refine congrArg numState (funext fun k => ?_)
      by_cases hr : isRoutedKey k = true
      · have hne : ¬(p.1 == k) = true := by
          intro hb
          exact h (by rw [beq_iff_eq.mp hb]; exact hr)
        simp [routeContrib, hr, List.filter_cons, hne]
      · simp [routeContrib, hr]

theorem resourcesFold (lbls : Record → Labels) (l : List Record)
    (S : String → List (List Value × Value))
    (gs ss : List (List Value × Value))
    (h1 : ∀ r ∈ l,
      get_known_labels r KNOWN_LABEL_KEYS = Except.ok (lbls r)) :
    foldE resourcesStep
      (numState S,
        { guestInit with samples := gs },
        { storageInit with samples := ss }) l =
      Except.ok
        (numState (fun k => S k ++ numericContrib lbls l k),
          { guestInit with samples := gs ++ guestContrib lbls l },
          { storageInit with samples := ss ++ storageContrib lbls l }) := by
  induction l generalizing S gs ss with
  | nil =>
    simp only [foldE, numericContrib, guestContrib, storageContrib,
      List.append_nil]
  | cons r rs ih =>
    have hr : get_known_labels r KNOWN_LABEL_KEYS = Except.ok (lbls r) :=
      h1 r (List.mem_cons_self _ _)
    have hstep : resourcesStep
        (numState S, { guestInit with samples := gs },
          { storageInit with samples := ss }) r =
        Except.ok
          (numState (fun k => S k ++ routeContrib (lvOf (lbls r)) r k),
            { guestInit with samples := gs ++
              (if isGuestType (getKey r "type") then
                [(lvOf (lbls r), Value.int 1)] else []) },
            { storageInit with samples := ss ++
              (if getKey r "type" == some (Value.str "storage") then
                [(lvOf (lbls r), Value.int 1)] else []) }) := by
      simp only [resourcesStep, hr]
      rw [resourceRoute]
      by_cases hg : isGuestType (getKey r "type") = true
      · rw [if_pos hg, if_pos hg]
        by_cases hs : (getKey r "type" == some (Value.str "storage")) = true
        · rw [if_pos hs, if_pos hs]
          simp [addMetric, lvOf]
        · rw [if_neg hs, if_neg hs]
          simp [addMetric, lvOf]
      · rw [if_neg hg, if_neg hg]
        by_cases hs : (getKey r "type" == some (Value.str "storage")) = true
        · rw [if_pos hs, if_pos hs]
          simp [addMetric, lvOf]
        · rw [if_neg hs, if_neg hs]
          simp [addMetric, lvOf]
    simp only [foldE, hstep]
    rw [ih (fun k => S k ++ routeContrib (lvOf (lbls r)) r k) _ _
      (fun x hx => h1 x (List.mem_cons_of_mem _ hx))]
    refine congrArg Except.ok ?_
    simp only [Prod.mk.injEq]
    refine ⟨?_, ?_, ?_⟩
    · exact congrArg numState (funext fun k => by
        simp [numericContrib, List.append_assoc])
    · simp [guestContrib, List.append_assoc]
    · simp [storageContrib, List.append_assoc]

theorem routeContrib_nodup (lv : List Value) (r : Record) (k : String)
    (hnd : (keysOf r).Nodup) (hk : isRoutedKey k = true) :
    routeContrib lv r k =
      match getKey r k with
      | some v => [(lv, v)]
      | none => [] := by
  simp only [routeContrib, if_pos hk]
  induction r with
  | nil => rfl
  | cons p ps ih =>
    have hnd' : (keysOf ps).Nodup := (List.nodup_cons.mp hnd).2
    by_cases h : p.1 = k
    · subst h
      rw [List.filter_cons, if_pos (by simp)]
      have hmem : p.1 ∉ keysOf ps := (List.nodup_cons.mp hnd).1
      have hnil : ps.filter (fun q => q.1 == p.1) = [] := by
        rw [List.filter_eq_nil_iff]
        intro q hq hb
        exact hmem (by
          rw [← beq_iff_eq.mp hb]
          exact List.mem_map_of_mem (fun p => p.1) hq)
      simp [getKey, hnil]
    · rw [List.filter_cons, if_neg (by simpa using h)]
      simp only [getKey]
      rw [if_neg (by simpa using h)]
      exact ih hnd'

theorem numericContrib_sparse (lbls : Record → Labels) (l : List Record)
    (k : String) (hk : isRoutedKey k = true)
    (hnd : ∀ r ∈ l, (keysOf r).Nodup) :
    numericContrib lbls l k = sparseSamples lbls l k := by
  induction l with
  | nil => rfl
  | cons r rs ih =>
    simp only [numericContrib, sparseSamples, List.filterMap_cons]
    rw [routeContrib_nodup _ _ _ (hnd r (List.mem_cons_self _ _)) hk]
    have ih' := ih (fun x hx => hnd x (List.mem_cons_of_mem _ hx))
    cases hv : getKey r k with
    | none => simpa [hv, sparseSamples] using ih'
    | some v => simpa [hv, sparseSamples] using ih'

theorem metricsTable_routed : ∀ m ∈ METRICS_TABLE, isRoutedKey m.1 = true :=
  by decide

/-! ## Lemmas about the schema collectors -/

theorem clusterNodeCollect_spec (status : List Record)
    (hty : ∀ e ∈ status, hasKey e "type" = true)
    (hon : ∀ e ∈ nodesOf status, hasKey e "online" = true)
    (hsch : ∀ e ∈ nodesOf status,
      keysOf (stripNode e) =
        keysOf (stripNode ((nodesOf status).headD []))) :
    clusterNodeCollect status =
      Except.ok
        (match nodesOf status with
         | [] => []
         | n0 :: _ =>
           [{ name := "pve_node_info"
              help := "Node info"
              labels := keysOf (stripNode n0)
              samples := (nodesOf status).map (fun n =>
                ((keysOf (stripNode n0)).map (fun k =>
                  Value.str (pyStr (valD (stripNode n) k))),
                 Value.int 1)) }]) := by
  have hg : ∀ e ∈ status, typeTag e = Except.ok (e, valD e "type") := by
    intro e he
    obtain ⟨v, hv⟩ := (hasKey_iff e "type").mp (hty e he)
    simp [typeTag, reqKey, hv, valD]
  have htag := mapE_congr_ok typeTag (fun e => (e, valD e "type")) status hg
  have hfilter : ((status.map (fun e => (e, valD e "type"))).filter
      (fun p => p.2 == Value.str "node")).map (fun p => p.1) =
      nodesOf status := by
    rw [List.filter_map]
    rw [List.map_map]
    have hpred : status.filter
        ((fun p => p.2 == Value.str "node") ∘ (fun e => (e, valD e "type"))) =
        nodesOf status := by
      apply List.filter_congr
      intro e he
      obtain ⟨v, hv⟩ := (hasKey_iff e "type").mp (hty e he)
      show (valD e "type" == Value.str "node") =
        (getKey e "type" == some (Value.str "node"))
      rw [show valD e "type" = v from by simp [valD, hv], hv]
      by_cases hb : v = Value.str "node" <;> simp [hb]
    rw [hpred]
    exact List.map_id _
  simp only [clusterNodeCollect, htag]
  rw [hfilter]
  cases hn : nodesOf status with
  | nil => rfl
  | cons n0 ns =>
    have hmem : ∀ n ∈ n0 :: ns, n ∈ nodesOf status := fun n h => by
      rw [hn]; exact h
    have hstrip : ∀ n ∈ n0 :: ns,
        (match delKey n "type" with
         | Except.ok n1 => delKey n1 "online"
         | Except.error e => Except.error e) = Except.ok (stripNode n) := by
      intro n hnm
      have hn' : n ∈ nodesOf status := hmem n hnm
      have htype : hasKey n "type" = true := by
        have hm := hn'
        simp only [nodesOf] at hm
        have := (List.mem_filter.mp hm).2
        exact (hasKey_iff n "type").mpr ⟨_, beq_iff_eq.mp this⟩
      have honl : hasKey n "online" = true := hon n hn'
      rw [show delKey n "type" =
        Except.ok (n.filter (fun p => !(p.1 == "type"))) from by
          simp [delKey, htype]]
      simp [delKey, hasKey_filter_ne n "online" "type" (by decide), honl,
        stripNode]
    have hstrips := mapE_congr_ok _ stripNode (n0 :: ns) hstrip
    simp only [hstrips, List.map_cons, List.headD_cons]
    have hsam : ∀ n' ∈ stripNode n0 :: ns.map stripNode,
        (match mapE (fun k =>
            match reqKey n' k with
            | Except.ok v => Except.ok (pyStr v)
            | Except.error e => Except.error e) (keysOf (stripNode n0)) with
         | Except.ok vs => Except.ok (vs.map Value.str, Value.int 1)
         | Except.error e => Except.error e) =
        Except.ok ((keysOf (stripNode n0)).map (fun k =>
          Value.str (pyStr (valD n' k))), Value.int 1) := by
      intro n' hn'
      have hn'' : n' ∈ (n0 :: ns).map stripNode := by
        simpa using hn'
      obtain ⟨n, hnm, rfl⟩ := List.mem_map.mp hn''
      have hks : keysOf (stripNode n) = keysOf (stripNode n0) := by
        have := hsch n (hmem n hnm)
        rw [hn] at this
        simpa using this
      have hinner : ∀ k ∈ keysOf (stripNode n0),
          (match reqKey (stripNode n) k with
           | Except.ok v => Except.ok (pyStr v)
           | Except.error e => Except.error e) =
          Except.ok (pyStr (valD (stripNode n) k)) := by
        intro k hk
        rw [← hks] at hk
        obtain ⟨v, hv⟩ := (hasKey_iff _ k).mp ((mem_keysOf_iff _ k).mp hk)
        simp [reqKey, hv, valD]
      rw [mapE_congr_ok _ (fun k => pyStr (valD (stripNode n) k)) _ hinner]
      simp [List.map_map, Function.comp]
    rw [mapE_congr_ok _
      (fun n' => ((keysOf (stripNode n0)).map (fun k =>
        Value.str (pyStr (valD n' k))), Value.int 1)) _ hsam]
    simp [List.map_map, Function.comp]

theorem clusterInfoCollect_spec (status : List Record)
    (hty : ∀ e ∈ status, hasKey e "type" = true)
    (hcn : ∀ e ∈ clustersOf status,
      ∃ s, getKey e "name" = some (Value.str s))
    (hsch : ∀ e ∈ clustersOf status,
      keysOf (stripCluster e) =
        keysOf (stripCluster ((clustersOf status).headD []))) :
    clusterInfoCollect status =
      Except.ok
        (match clustersOf status with
         | [] => []
         | c0 :: _ =>
           [{ name := "pve_cluster_info"
              help := "Cluster info"
              labels := keysOf (stripCluster c0)
              samples := (clustersOf status).map (fun c =>
                ((keysOf (stripCluster c0)).map (fun k =>
                  Value.str (pyStr (valD (stripCluster c) k))),
                 Value.int 1)) }]) := by
  have hg : ∀ e ∈ status, typeTag e = Except.ok (e, valD e "type") := by
    intro e he
    obtain ⟨v, hv⟩ := (hasKey_iff e "type").mp (hty e he)
    simp [typeTag, reqKey, hv, valD]
  have htag := mapE_congr_ok typeTag (fun e => (e, valD e "type")) status hg
  have hfilter : ((status.map (fun e => (e, valD e "type"))).filter
      (fun p => p.2 == Value.str "cluster")).map (fun p => p.1) =
      clustersOf status := by
    rw [List.filter_map]
    rw [List.map_map]
    have hpred : status.filter
        ((fun p => p.2 == Value.str "cluster") ∘
          (fun e => (e, valD e "type"))) =
        clustersOf status := by
      apply List.filter_congr
      intro e he
      obtain ⟨v, hv⟩ := (hasKey_iff e "type").mp (hty e he)
      show (valD e "type" == Value.str "cluster") =
        (getKey e "type" == some (Value.str "cluster"))
      rw [show valD e "type" = v from by simp [valD, hv], hv]
      by_cases hb : v = Value.str "cluster" <;> simp [hb]
    rw [hpred]
    exact List.map_id _
  simp only [clusterInfoCollect, htag]
  rw [hfilter]
  cases hn : clustersOf status with
  | nil => rfl
  | cons c0 cs =>
    have hmem : ∀ c ∈ c0 :: cs, c ∈ clustersOf status := fun c h => by
      rw [hn]; exact h
    have hstrip : ∀ c ∈ c0 :: cs,
        (match delKey c "type" with
         | Except.ok c1 =>
           match reqKey c1 "name" with
           | Except.ok n =>
             match fmtSO (some n) with
             | Except.ok s =>
               delKey (setKey c1 "id" (Value.str ("cluster/" ++ s))) "name"
             | Except.error e => Except.error e
           | Except.error e => Except.error e
         | Except.error e => Except.error e) =
        Except.ok (stripCluster c) := by
      intro c hcm
      have hc' : c ∈ clustersOf status := hmem c hcm
      have htype : hasKey c "type" = true := by
        have hm := hc'
        simp only [clustersOf] at hm
        have := (List.mem_filter.mp hm).2
        exact (hasKey_iff c "type").mpr ⟨_, beq_iff_eq.mp this⟩
      obtain ⟨s, hs⟩ := hcn c hc'
      have hname1 : getKey (c.filter (fun p => !(p.1 == "type"))) "name" =
          some (Value.str s) := by
        rw [getKey_filter_ne c "name" "type" (by decide), hs]
      have hnamekey : hasKey (setKey (c.filter (fun p => !(p.1 == "type")))
          "id" (Value.str ("cluster/" ++ s))) "name" = true := by
        rw [hasKey_setKey_ne _ _ _ _ (by decide)]
        exact (hasKey_iff _ "name").mpr ⟨_, hname1⟩
      have hcs : clusterNameStr c = s := by
        simp [clusterNameStr, hs]
      simp only [show delKey c "type" =
          Except.ok (c.filter (fun p => !(p.1 == "type"))) from by
            simp [delKey, htype],
        show reqKey (c.filter (fun p => !(p.1 == "type"))) "name" =
          Except.ok (Value.str s) from by simp [reqKey, hname1],
        show fmtSO (some (Value.str s)) = Except.ok s from rfl]
      simp [delKey, hnamekey, stripCluster, hcs]
    have hstrips := mapE_congr_ok _ stripCluster (c0 :: cs) hstrip
    simp only [hstrips, List.map_cons, List.headD_cons]
    have hsam : ∀ c' ∈ stripCluster c0 :: cs.map stripCluster,
        (match mapE (fun k =>
            match reqKey c' k with
            | Except.ok v => Except.ok (pyStr v)
            | Except.error e => Except.error e)
            (keysOf (stripCluster c0)) with
         | Except.ok vs => Except.ok (vs.map Value.str, Value.int 1)
         | Except.error e => Except.error e) =
        Except.ok ((keysOf (stripCluster c0)).map (fun k =>
          Value.str (pyStr (valD c' k))), Value.int 1) := by
      intro c' hc'
      have hc'' : c' ∈ (c0 :: cs).map stripCluster := by
        simpa using hc'
      obtain ⟨c, hcm, rfl⟩ := List.mem_map.mp hc''
      have hks : keysOf (stripCluster c) = keysOf (stripCluster c0) := by
        have := hsch c (hmem c hcm)
        rw [hn] at this
        simpa using this
      have hinner : ∀ k ∈ keysOf (stripCluster c0),
          (match reqKey (stripCluster c) k with
           | Except.ok v => Except.ok (pyStr v)
           | Except.error e => Except.error e) =
          Except.ok (pyStr (valD (stripCluster c) k)) := by
        intro k hk
        rw [← hks] at hk
        obtain ⟨v, hv⟩ := (hasKey_iff _ k).mp ((mem_keysOf_iff _ k).mp hk)
        simp [reqKey, hv, valD]
      rw [mapE_congr_ok _ (fun k => pyStr (valD (stripCluster c) k)) _
        hinner]
      simp [List.map_map, Function.comp]
    rw [mapE_congr_ok _
      (fun c' => ((keysOf (stripCluster c0)).map (fun k =>
        Value.str (pyStr (valD c' k))), Value.int 1)) _ hsam]
    simp [List.map_map, Function.comp]

/-! ## Claim theorems -/

/-- **C9**: the label-value downcast maps absent/`None` to `""`, `True` to
`"1"`, `False` to `"0"`, and every other value to its string representation
(integers in base 10, e.g. `42` to `"42"`; strings to themselves). -/
theorem downcast_label_value_law :
    downcast_label_value none = "" ∧
    downcast_label_value (some (Value.bool true)) = "1" ∧
    downcast_label_value (some (Value.bool false)) = "0" ∧
    (∀ s : String, downcast_label_value (some (Value.str s)) = s) ∧
    (∀ n : Int, downcast_label_value (some (Value.int n)) = toString n) ∧
    downcast_label_value (some (Value.int 42)) = "42" :=
  ⟨rfl, rfl, rfl, fun _ => rfl, fun _ => rfl, rfl⟩

/-- **C2**: for a record whose `type` is one of the supported kinds,
`is_entry_up` returns (without error) a value that is truthy exactly when
`quorate` is truthy, or `online` is truthy, or `status` is one of
`available`/`online`/`running`; for any other record it raises instead of
returning. -/
theorem is_entry_up_decision (r : Record) :
    (typeSupported (getKey r "type") = true →
      is_entry_up r =
        Except.ok (pyOr (getKey r "quorate")
          (pyOr (getKey r "online")
            (Value.bool (statusIn (getKey r "status"))))) ∧
      truthy (pyOr (getKey r "quorate")
          (pyOr (getKey r "online")
            (Value.bool (statusIn (getKey r "status"))))) =
        (truthyO (getKey r "quorate") || truthyO (getKey r "online") ||
          statusIn (getKey r "status"))) ∧
    (typeSupported (getKey r "type") = false →
      Except.isOk (is_entry_up r) = false) := by
  constructor
  · intro h
    constructor
    · unfold is_entry_up
      rw [if_pos h]
    · rw [truthy_pyOr, truthy_pyOr]
      simp [truthy, Bool.or_assoc]
  · intro h
    unfold is_entry_up
    rw [if_neg (by simp [h])]
    split
    · rfl
    · rfl

/-- Witness for `is_entry_up_decision`: a node record with `online = True`
is up without error; a record of unknown type `frobnicate` raises. -/
theorem is_entry_up_decision_witness :
    (typeSupported (getKey [("type", Value.str "node"),
        ("online", Value.bool true)] "type") = true ∧
      is_entry_up [("type", Value.str "node"), ("online", Value.bool true)] =
        Except.ok (Value.bool true)) ∧
    (typeSupported (getKey [("type", Value.str "frobnicate")] "type") =
        false ∧
      Except.isOk (is_entry_up [("type", Value.str "frobnicate")]) = false) :=
  ⟨⟨rfl, ((is_entry_up_decision
      [("type", Value.str "node"), ("online", Value.bool true)]).1 rfl).1⟩,
   ⟨rfl, (is_entry_up_decision [("type", Value.str "frobnicate")]).2 rfl⟩⟩

/-- **C3 counterexample**: the overrides are keyed on the *copied* `type`
label, not the record's own `type` field.  For the storage record below and
the requested label list `["name"]` (which does not contain `"type"`), the
code leaves `name = "x"` instead of setting it to `record.storage =
"local"` as the claim demands. -/
theorem get_known_labels_no_type_cex :
    get_known_labels
      [("type", Value.str "storage"), ("storage", Value.str "local"),
        ("name", Value.str "x")] ["name"] =
      Except.ok [("name", some (Value.str "x"))] ∧
    getKey [("type", Value.str "storage"), ("storage", Value.str "local"),
        ("name", Value.str "x")] "storage" = some (Value.str "local") ∧
    Value.str "x" ≠ Value.str "local" :=
  ⟨rfl, rfl, by decide⟩

/-- **C3 (amended)**: the overrides fire on the copied `type` label, so only
when `"type"` is among the requested label names (duplicates removed): then
a storage record gets `name := record.storage`, a node record gets
`name := record.node`, and a cluster record with a string `name` gets
`id := "cluster/" + record.name`.  When `"type"` is not requested, no
override applies and the result is the plain copy of the requested keys. -/
theorem get_known_labels_overrides (r : Record) (keys : List String) :
    ("name" ∈ keys.eraseDups → "type" ∈ keys.eraseDups →
      getKey r "type" = some (Value.str "storage") →
      ∃ ls, get_known_labels r keys = Except.ok ls ∧
        getLabel ls "name" = getKey r "storage") ∧
    ("name" ∈ keys.eraseDups → "type" ∈ keys.eraseDups →
      getKey r "type" = some (Value.str "node") →
      ∃ ls, get_known_labels r keys = Except.ok ls ∧
        getLabel ls "name" = getKey r "node") ∧
    ("id" ∈ keys.eraseDups → "type" ∈ keys.eraseDups →
      getKey r "type" = some (Value.str "cluster") →
      ∀ s : String, getKey r "name" = some (Value.str s) →
      ∃ ls, get_known_labels r keys = Except.ok ls ∧
        getLabel ls "id" = some (Value.str ("cluster/" ++ s))) ∧
    ("type" ∉ keys.eraseDups →
      get_known_labels r keys =
        Except.ok (keys.eraseDups.map (fun k => (k, getKey r k)))) := by
  have eSS : (some (Value.str "storage") == some (Value.str "storage")) =
      true := rfl
  have eNN : (some (Value.str "node") == some (Value.str "node")) = true := rfl
  have eCC : (some (Value.str "cluster") == some (Value.str "cluster")) =
      true := rfl
  have eNS : ¬((some (Value.str "node") == some (Value.str "storage")) =
      true) := by decide
  have eSC : ¬((some (Value.str "storage") == some (Value.str "cluster")) =
      true) := by decide
  have eNC : ¬((some (Value.str "node") == some (Value.str "cluster")) =
      true) := by decide
  have eCS : ¬((some (Value.str "cluster") == some (Value.str "storage")) =
      true) := by decide
  have eCN : ¬((some (Value.str "cluster") == some (Value.str "node")) =
      true) := by decide
  have eOS : ¬(((none : Option Value) == some (Value.str "storage")) =
      true) := by decide
  have eON : ¬(((none : Option Value) == some (Value.str "node")) = true) :=
    by decide
  have eOC : ¬(((none : Option Value) == some (Value.str "cluster")) =
      true) := by decide
  have htn : ("type" : String) ≠ "name" := by decide
  refine ⟨?_, ?_, ?_, ?_⟩
  · -- storage override
    intro hn ht hst
    have hb1 : hasLabel (keys.eraseDups.map (fun k => (k, getKey r k)))
        "name" = true := (hasLabel_copy r _ "name").mpr hn
    have hgt : getLabel (keys.eraseDups.map (fun k => (k, getKey r k)))
        "type" = some (Value.str "storage") := by
      rw [getLabel_copy, if_pos ht, hst]
    simp only [get_known_labels]
    rw [if_pos hb1, hgt, if_pos eSS, getLabel_setLabel_ne _ "name" "type" _ htn,
      hgt, if_neg eSC, ite_self]
    exact ⟨_, rfl, getLabel_setLabel_self _ _ _ hb1⟩
  · -- node override
    intro hn ht hnd
    have hb1 : hasLabel (keys.eraseDups.map (fun k => (k, getKey r k)))
        "name" = true := (hasLabel_copy r _ "name").mpr hn
    have hgt : getLabel (keys.eraseDups.map (fun k => (k, getKey r k)))
        "type" = some (Value.str "node") := by
      rw [getLabel_copy, if_pos ht, hnd]
    simp only [get_known_labels]
    rw [if_pos hb1, hgt, if_neg eNS, if_pos eNN,
      getLabel_setLabel_ne _ "name" "type" _ htn, hgt, if_neg eNC, ite_self]
    exact ⟨_, rfl, getLabel_setLabel_self _ _ _ hb1⟩
  · -- cluster id override
    intro hid ht hcl s hname
    have hbid : hasLabel (keys.eraseDups.map (fun k => (k, getKey r k)))
        "id" = true := (hasLabel_copy r _ "id").mpr hid
    have hgt : getLabel (keys.eraseDups.map (fun k => (k, getKey r k)))
        "type" = some (Value.str "cluster") := by
      rw [getLabel_copy, if_pos ht, hcl]
    simp only [get_known_labels]
    by_cases hbn : hasLabel (keys.eraseDups.map (fun k => (k, getKey r k)))
        "name" = true
    · rw [if_pos hbn, hgt, if_neg eCS, if_neg eCN, if_pos hbid, hgt,
        if_pos eCC, hname]
      simp only [fmtSO]
      exact ⟨_, rfl, getLabel_setLabel_self _ _ _ hbid⟩
    · rw [if_neg hbn, if_pos hbid, hgt, if_pos eCC, hname]
      simp only [fmtSO]
      exact ⟨_, rfl, getLabel_setLabel_self _ _ _ hbid⟩
  · -- no "type" requested: plain copy, no overrides
    intro hnt
    have hgt : getLabel (keys.eraseDups.map (fun k => (k, getKey r k)))
        "type" = none := by
      rw [getLabel_copy, if_neg hnt]
    simp only [get_known_labels]
    by_cases hbn : hasLabel (keys.eraseDups.map (fun k => (k, getKey r k)))
        "name" = true
    · rw [if_pos hbn, hgt, if_neg eOS, if_neg eON, hgt, if_neg eOC, ite_self]
    · rw [if_neg hbn, hgt, if_neg eOC, ite_self]

/-- Witness for `get_known_labels_overrides`, at concrete storage, node and
cluster records with the default label keys, and at a storage record with
only `["name"]` requested. -/
theorem get_known_labels_overrides_witness :
    getLabel [("id", some (Value.str "storage/pve1/local")),
        ("name", some (Value.str "local")), ("node", some (Value.str "pve1")),
        ("template", none), ("type", some (Value.str "storage"))] "name" =
      getKey [("type", Value.str "storage"), ("storage", Value.str "local"),
        ("node", Value.str "pve1"), ("id", Value.str "storage/pve1/local")]
        "storage" ∧
    getLabel [("id", some (Value.str "node/pve1")),
        ("name", some (Value.str "pve1")), ("node", some (Value.str "pve1")),
        ("template", none), ("type", some (Value.str "node"))] "name" =
      getKey [("type", Value.str "node"), ("node", Value.str "pve1"),
        ("id", Value.str "node/pve1")] "node" ∧
    getLabel [("id", some (Value.str "cluster/pvec")),
        ("name", some (Value.str "pvec")), ("node", none), ("template", none),
        ("type", some (Value.str "cluster"))] "id" =
      some (Value.str ("cluster/" ++ "pvec")) ∧
    get_known_labels [("type", Value.str "storage"),
        ("storage", Value.str "local")] ["name"] =
      Except.ok [("name", none)] := by
  refine ⟨?_, ?_, ?_, ?_⟩
  · obtain ⟨ls, h1, h2⟩ :=
      (get_known_labels_overrides
        [("type", Value.str "storage"), ("storage", Value.str "local"),
          ("node", Value.str "pve1"), ("id", Value.str "storage/pve1/local")]
        KNOWN_LABEL_KEYS).1 (by decide) (by decide) rfl
    have hls : ls = [("id", some (Value.str "storage/pve1/local")),
        ("name", some (Value.str "local")), ("node", some (Value.str "pve1")),
        ("template", none), ("type", some (Value.str "storage"))] :=
      Except.ok.inj (h1.symm.trans rfl)
    exact hls ▸ h2
  · obtain ⟨ls, h1, h2⟩ :=
      (get_known_labels_overrides
        [("type", Value.str "node"), ("node", Value.str "pve1"),
          ("id", Value.str "node/pve1")] KNOWN_LABEL_KEYS).2.1
        (by decide) (by decide) rfl
    have hls : ls = [("id", some (Value.str "node/pve1")),
        ("name", some (Value.str "pve1")), ("node", some (Value.str "pve1")),
        ("template", none), ("type", some (Value.str "node"))] :=
      Except.ok.inj (h1.symm.trans rfl)
    exact hls ▸ h2
  · obtain ⟨ls, h1, h2⟩ :=
      (get_known_labels_overrides
        [("type", Value.str "cluster"), ("name", Value.str "pvec")]
        KNOWN_LABEL_KEYS).2.2.1 (by decide) (by decide) rfl "pvec" rfl
    have hls : ls = [("id", some (Value.str "cluster/pvec")),
        ("name", some (Value.str "pvec")), ("node", none), ("template", none),
        ("type", some (Value.str "cluster"))] :=
      Except.ok.inj (h1.symm.trans rfl)
    exact hls ▸ h2
  · exact ((get_known_labels_overrides
      [("type", Value.str "storage"), ("storage", Value.str "local")]
      ["name"]).2.2.2 (by decide)).trans rfl

/-- **C8**: the version collector keeps only the whitelist fields
(`release`, `repoid`, `version`), emits exactly one sample with value `1`
whose labels are exactly the filtered field set, and raises when the record
shares no field with the whitelist. -/
theorem versionCollect_spec (version : Record) :
    (version.filter (fun p => LABEL_WHITELIST.contains p.1) = [] →
      versionCollect version =
        Except.error "ValueError: not enough values to unpack") ∧
    (version.filter (fun p => LABEL_WHITELIST.contains p.1) ≠ [] →
      versionCollect version =
        Except.ok
          { name := "pve_version_info"
            help := "Proxmox VE version info"
            labels := (version.filter
              (fun p => LABEL_WHITELIST.contains p.1)).map (fun p => p.1)
            samples := [((version.filter
              (fun p => LABEL_WHITELIST.contains p.1)).map (fun p => p.2),
              Value.int 1)] }) := by
  constructor
  · intro h
    simp only [versionCollect]
    rw [h]
  · intro h
    cases hf : version.filter (fun p => LABEL_WHITELIST.contains p.1) with
    | nil => exact absurd hf h
    | cons a as =>
      simp only [versionCollect]
      rw [hf]

/-- Witness for `versionCollect_spec`: a version record with one whitelisted
field yields exactly one sample with that label; a record sharing no field
with the whitelist raises. -/
theorem versionCollect_spec_witness :
    versionCollect [("version", Value.str "4.4"),
        ("keyboard", Value.str "de")] =
      Except.ok
        { name := "pve_version_info"
          help := "Proxmox VE version info"
          labels := ["version"]
          samples := [([Value.str "4.4"], Value.int 1)] } ∧
    versionCollect [("keyboard", Value.str "de")] =
      Except.error "ValueError: not enough values to unpack" :=
  ⟨((versionCollect_spec [("version", Value.str "4.4"),
      ("keyboard", Value.str "de")]).2 (by decide)).trans (by rfl),
   (versionCollect_spec [("keyboard", Value.str "de")]).1 rfl⟩

/-- **C7 counterexample**: the claim says every emitted up/down sample has
value exactly `1.0` or `0.0` for *all* possible `quorate`/`online`/`status`
values; but Python `or` returns its first truthy operand, so a cluster
record with `quorate = 2` emits the sample value `2` (serialized as `2.0`),
which is neither `1.0` nor `0.0`. -/
theorem status_value_cex :
    statusCollect [[("type", Value.str "cluster"), ("quorate", Value.int 2),
        ("name", Value.str "c")]] [] =
      Except.ok
        { name := "pve_up"
          help := "Node/VM/CT-Status is online/running"
          labels := KNOWN_LABEL_KEYS
          samples := [([Value.str "cluster/c", Value.str "c", Value.str "",
            Value.str "", Value.str "cluster"], Value.int 2)] } ∧
    Value.int 2 ≠ Value.int 1 ∧ Value.int 2 ≠ Value.int 0 ∧
    Value.int 2 ≠ Value.bool true ∧ Value.int 2 ≠ Value.bool false :=
  ⟨rfl, by decide, by decide, by decide, by decide⟩

/-- **C1**: over the concatenation of the resources list and the status
list (in that order), the status collector emits exactly one sample per
derived identity: the samples are precisely those of the first record seen
for each identity (with that record's status), later records with the same
identity are skipped, the emitted identities are pairwise distinct, and
every record's identity is represented. -/
theorem statusCollect_dedup (resources status : List Record)
    (lbls : Record → Labels) (ups : Record → Value)
    (h1 : ∀ r ∈ resources ++ status,
      get_known_labels r KNOWN_LABEL_KEYS = Except.ok (lbls r))
    (h2 : ∀ r ∈ dedupFirstBy (fun r => getLabel (lbls r) "id") []
        (resources ++ status), is_entry_up r = Except.ok (ups r)) :
    statusCollect resources status =
      Except.ok
        { name := "pve_up"
          help := "Node/VM/CT-Status is online/running"
          labels := KNOWN_LABEL_KEYS
          samples := (dedupFirstBy (fun r => getLabel (lbls r) "id") []
            (resources ++ status)).map
              (fun r => statusSample (lbls r) (ups r)) } ∧
    ((dedupFirstBy (fun r => getLabel (lbls r) "id") []
        (resources ++ status)).map
          (fun r => getLabel (lbls r) "id")).Nodup ∧
    (∀ r ∈ resources ++ status,
      getLabel (lbls r) "id" ∈
        (dedupFirstBy (fun r => getLabel (lbls r) "id") []
          (resources ++ status)).map (fun r => getLabel (lbls r) "id")) := by
  refine ⟨?_, (dedupFirstBy_map_prop _ _ _).1, ?_⟩
  · simp only [statusCollect]
    rw [statusFold_spec lbls ups _ [] [] h1 h2]
    rfl
  · intro r hr
    rcases dedupFirstBy_covers (fun r => getLabel (lbls r) "id") []
      (resources ++ status) r hr with h | h
    · exact absurd h (List.not_mem_nil _)
    · exact h

/-- Witness for `statusCollect_dedup`: a node record followed by a second
record with the same identity but `online = 0`; exactly one sample is
emitted, with the first record's status. -/
theorem statusCollect_dedup_witness :
    statusCollect
      [[("id", Value.str "node/pve1"), ("type", Value.str "node"),
        ("node", Value.str "pve1"), ("online", Value.int 1)]]
      [[("id", Value.str "node/pve1"), ("type", Value.str "node"),
        ("node", Value.str "pve1"), ("online", Value.int 0)]] =
      Except.ok
        { name := "pve_up"
          help := "Node/VM/CT-Status is online/running"
          labels := KNOWN_LABEL_KEYS
          samples := [([Value.str "node/pve1", Value.str "pve1",
            Value.str "pve1", Value.str "", Value.str "node"],
            Value.int 1)] } := by
  have h := (statusCollect_dedup
    [[("id", Value.str "node/pve1"), ("type", Value.str "node"),
      ("node", Value.str "pve1"), ("online", Value.int 1)]]
    [[("id", Value.str "node/pve1"), ("type", Value.str "node"),
      ("node", Value.str "pve1"), ("online", Value.int 0)]]
    (fun _ => [("id", some (Value.str "node/pve1")),
      ("name", some (Value.str "pve1")), ("node", some (Value.str "pve1")),
      ("template", none), ("type", some (Value.str "node"))])
    (fun _ => Value.int 1)
    (fun r hr => by
      rcases List.mem_cons.mp hr with rfl | hr
      · rfl
      · rcases List.mem_cons.mp hr with rfl | hr
        · rfl
        · exact absurd hr (List.not_mem_nil _))
    (fun r hr => by
      have e : dedupFirstBy
          (fun r => getLabel ((fun _ => [("id", some (Value.str "node/pve1")),
            ("name", some (Value.str "pve1")),
            ("node", some (Value.str "pve1")), ("template", none),
            ("type", some (Value.str "node"))]) r) "id") []
          ([[("id", Value.str "node/pve1"), ("type", Value.str "node"),
            ("node", Value.str "pve1"), ("online", Value.int 1)]] ++
           [[("id", Value.str "node/pve1"), ("type", Value.str "node"),
            ("node", Value.str "pve1"), ("online", Value.int 0)]]) =
          [[("id", Value.str "node/pve1"), ("type", Value.str "node"),
            ("node", Value.str "pve1"), ("online", Value.int 1)]] := rfl
      rw [e] at hr
      rcases List.mem_cons.mp hr with rfl | hr
      · rfl
      · exact absurd hr (List.not_mem_nil _))).1
  exact h

/-- **C10**: a record whose identity was already processed is skipped before
the resource-kind check, so removing it from the stream does not change the
scrape at all — in particular a duplicate of any type, supported or not,
never raises and never re-evaluates `is_entry_up`. -/
theorem statusCollect_skips_duplicate (res1 res2 status : List Record)
    (r : Record) (lbl : Labels)
    (st : List (Option Value) × List (List Value × Value))
    (h1 : get_known_labels r KNOWN_LABEL_KEYS = Except.ok lbl)
    (h2 : foldE statusStep ([], []) res1 = Except.ok st)
    (h3 : getLabel lbl "id" ∈ st.1) :
    statusCollect (res1 ++ r :: res2) status =
      statusCollect (res1 ++ res2) status := by
  have hstep : statusStep st r = Except.ok st := by
    simp only [statusStep, h1]
    rw [if_pos h3]
  have key : foldE statusStep ([], []) ((res1 ++ r :: res2) ++ status) =
      foldE statusStep ([], []) ((res1 ++ res2) ++ status) := by
    have e1 : (res1 ++ r :: res2) ++ status =
        res1 ++ (r :: (res2 ++ status)) := by simp
    have e2 : (res1 ++ res2) ++ status = res1 ++ (res2 ++ status) := by simp
    rw [e1, e2, foldE_append_ok _ _ _ _ _ h2, foldE_append_ok _ _ _ _ _ h2]
    simp only [foldE, hstep]
  simp only [statusCollect, key]

/-- Witness for `statusCollect_skips_duplicate`: a duplicate record of
unsupported type `frobnicate` is skipped entirely — the scrape equals the
one without it and succeeds. -/
theorem statusCollect_skips_duplicate_witness :
    statusCollect
      [[("id", Value.str "node/pve1"), ("type", Value.str "node"),
        ("node", Value.str "pve1"), ("online", Value.int 1)],
       [("type", Value.str "frobnicate"), ("id", Value.str "node/pve1")]]
      [] =
      statusCollect
        [[("id", Value.str "node/pve1"), ("type", Value.str "node"),
          ("node", Value.str "pve1"), ("online", Value.int 1)]] [] ∧
    Except.isOk (statusCollect
      [[("id", Value.str "node/pve1"), ("type", Value.str "node"),
        ("node", Value.str "pve1"), ("online", Value.int 1)],
       [("type", Value.str "frobnicate"), ("id", Value.str "node/pve1")]]
      []) = true ∧
    typeSupported (getKey
      [("type", Value.str "frobnicate"), ("id", Value.str "node/pve1")]
      "type") = false := by
  refine ⟨?_, rfl, rfl⟩
  exact statusCollect_skips_duplicate
    [[("id", Value.str "node/pve1"), ("type", Value.str "node"),
      ("node", Value.str "pve1"), ("online", Value.int 1)]] [] []
    [("type", Value.str "frobnicate"), ("id", Value.str "node/pve1")]
    [("id", some (Value.str "node/pve1")), ("name", none), ("node", none),
      ("template", none), ("type", some (Value.str "frobnicate"))]
    ([some (Value.str "node/pve1")],
      [([Value.str "node/pve1", Value.str "pve1", Value.str "pve1",
        Value.str "", Value.str "node"], Value.int 1)])
    rfl rfl (List.mem_singleton.mpr rfl)

theorem pyOr_up_shape (q o : Option Value) (c : Bool)
    (hq : boolish q) (ho : boolish o) :
    (truthy (pyOr q (pyOr o (Value.bool c))) = true →
      pyOr q (pyOr o (Value.bool c)) = Value.int 1 ∨
      pyOr q (pyOr o (Value.bool c)) = Value.bool true) ∧
    (truthy (pyOr q (pyOr o (Value.bool c))) = false →
      pyOr q (pyOr o (Value.bool c)) = Value.bool false) := by
  rcases hq with rfl | ⟨b, rfl⟩ | rfl | rfl <;>
    rcases ho with rfl | ⟨b2, rfl⟩ | rfl | rfl
  all_goals try cases b
  all_goals try cases b2
  all_goals cases c
  all_goals decide

theorem is_entry_up_ok_shape (r : Record) (v : Value)
    (h : is_entry_up r = Except.ok v) :
    v = pyOr (getKey r "quorate")
      (pyOr (getKey r "online")
        (Value.bool (statusIn (getKey r "status")))) := by
  unfold is_entry_up at h
  by_cases ht : typeSupported (getKey r "type") = true
  · rw [if_pos ht] at h
    exact (Except.ok.inj h).symm
  · rw [if_neg ht] at h
    split at h
    · exact Except.noConfusion h
    · exact Except.noConfusion h

/-- **C7 (amended)**: for every emitted sample whose source record carries
only boolean-like `quorate` and `online` values (absent, a real boolean, or
the integer `0`/`1`), the sample value is `1` or `True` (both serialized as
`1.0`) exactly when the record is up, and `False` (serialized `0.0`) when
it is down; the label values are in `id, name, node, template, type` order.
(For other field values the emitted value is the first truthy operand of
`quorate or online or ...` itself, e.g. `quorate = 2` emits `2.0` — see the
counterexample.) -/
theorem status_sample_values (resources status : List Record)
    (lbls : Record → Labels) (ups : Record → Value)
    (h1 : ∀ r ∈ resources ++ status,
      get_known_labels r KNOWN_LABEL_KEYS = Except.ok (lbls r))
    (h2 : ∀ r ∈ dedupFirstBy (fun r => getLabel (lbls r) "id") []
        (resources ++ status), is_entry_up r = Except.ok (ups r))
    (h3 : ∀ r ∈ resources ++ status,
      boolish (getKey r "quorate") ∧ boolish (getKey r "online")) :
    ∀ fam, statusCollect resources status = Except.ok fam →
      fam.labels = KNOWN_LABEL_KEYS ∧
      ∀ s ∈ fam.samples, ∃ r ∈ resources ++ status,
        s.1 = (get_label_values (lbls r) (some KNOWN_LABEL_KEYS)).map
          Value.str ∧
        is_entry_up r = Except.ok s.2 ∧
        truthy s.2 = (truthyO (getKey r "quorate") ||
          truthyO (getKey r "online") || statusIn (getKey r "status")) ∧
        (truthy s.2 = true →
          s.2 = Value.int 1 ∨ s.2 = Value.bool true) ∧
        (truthy s.2 = false → s.2 = Value.bool false) := by
  intro fam hfam
  have hs := statusFold_spec lbls ups (resources ++ status) [] [] h1 h2
  simp only [statusCollect, hs] at hfam
  have hfam' := Except.ok.inj hfam
  subst hfam'
  refine ⟨rfl, ?_⟩
  intro s hsmem
  simp only [List.nil_append] at hsmem
  obtain ⟨r, hrmem, rfl⟩ := List.mem_map.mp hsmem
  have hrin : r ∈ resources ++ status := dedupFirstBy_mem _ _ _ r hrmem
  have hup : is_entry_up r = Except.ok (ups r) := h2 r hrmem
  have hshape := is_entry_up_ok_shape r (ups r) hup
  obtain ⟨hq, ho⟩ := h3 r hrin
  refine ⟨r, hrin, rfl, hup, ?_, ?_, ?_⟩
  · show truthy (ups r) = _
    rw [hshape, truthy_pyOr, truthy_pyOr]
    simp [truthy, Bool.or_assoc]
  · intro ht
    have := (pyOr_up_shape _ _ _ hq ho).1 (by rw [← hshape]; exact ht)
    rw [hshape]
    exact this
  · intro ht
    have := (pyOr_up_shape _ _ _ hq ho).2 (by rw [← hshape]; exact ht)
    rw [hshape]
    exact this

/-- Witness for `status_sample_values`, applied to a one-node scrape whose
emitted sample has value `1` (serialized `1.0`). -/
theorem status_sample_values_witness :
    ({ name := "pve_up"
       help := "Node/VM/CT-Status is online/running"
       labels := KNOWN_LABEL_KEYS
       samples := [([Value.str "node/pve1", Value.str "pve1",
         Value.str "pve1", Value.str "", Value.str "node"], Value.int 1)] } :
      GaugeMetricFamily).labels = KNOWN_LABEL_KEYS ∧
    truthy (Value.int 1) = true := by
  constructor
  · exact (status_sample_values
      [[("id", Value.str "node/pve1"), ("type", Value.str "node"),
        ("node", Value.str "pve1"), ("online", Value.int 1)]] []
      (fun _ => [("id", some (Value.str "node/pve1")),
        ("name", some (Value.str "pve1")), ("node", some (Value.str "pve1")),
        ("template", none), ("type", some (Value.str "node"))])
      (fun _ => Value.int 1)
      (fun r hr => by
        rcases List.mem_cons.mp hr with rfl | hr
        · rfl
        · exact absurd hr (List.not_mem_nil _))
      (fun r hr => by
        have e : dedupFirstBy
            (fun r => getLabel ((fun _ => [("id", some (Value.str "node/pve1")),
              ("name", some (Value.str "pve1")),
              ("node", some (Value.str "pve1")), ("template", none),
              ("type", some (Value.str "node"))]) r) "id") []
            ([[("id", Value.str "node/pve1"), ("type", Value.str "node"),
              ("node", Value.str "pve1"), ("online", Value.int 1)]] ++ []) =
            [[("id", Value.str "node/pve1"), ("type", Value.str "node"),
              ("node", Value.str "pve1"), ("online", Value.int 1)]] := rfl
        rw [e] at hr
        rcases List.mem_cons.mp hr with rfl | hr
        · rfl
        · exact absurd hr (List.not_mem_nil _))
      (fun r hr => by
        rcases List.mem_cons.mp hr with rfl | hr
        · exact ⟨Or.inl rfl, Or.inr (Or.inr (Or.inr rfl))⟩
        · exact absurd hr (List.not_mem_nil _))
      _ rfl).1
  · rfl

/-- **C5**: the resources collector emits, for each routed field
(`maxdisk, disk, maxmem, mem, netout, netin, diskwrite, diskread, cpu,
maxcpu, uptime`), one sample per record that carries the field — with the
record's own label values and the field's value — and no sample for
records lacking the field (see `sparseSamples`); plus the two info families
at the end.  All 13 families are emitted even when empty. -/
theorem clusterResources_routing (resources : List Record)
    (lbls : Record → Labels)
    (h1 : ∀ r ∈ resources,
      get_known_labels r KNOWN_LABEL_KEYS = Except.ok (lbls r))
    (hnd : ∀ r ∈ resources, (keysOf r).Nodup) :
    clusterResourcesCollect resources =
      Except.ok
        (METRICS_TABLE.map (fun m =>
          { name := m.2.1
            help := m.2.2
            labels := KNOWN_LABEL_KEYS
            samples := sparseSamples lbls resources m.1 }) ++
         [{ guestInit with samples := guestContrib lbls resources },
          { storageInit with samples := storageContrib lbls resources }]) := by
  simp only [clusterResourcesCollect]
  rw [show ((numInit, guestInit, storageInit) :
      List (String × GaugeMetricFamily) × GaugeMetricFamily ×
        GaugeMetricFamily) =
      (numState (fun _ => []), { guestInit with samples := [] },
        { storageInit with samples := [] }) from rfl]
  rw [resourcesFold lbls resources (fun _ => []) [] [] h1]
  refine congrArg Except.ok ?_
  refine congrArg (fun l => l ++ _) ?_
  simp only [numState, List.map_map]
  apply List.map_congr_left
  intro m hm
  simp only [Function.comp]
  simp only [Prod.mk.injEq, GaugeMetricFamily.mk.injEq, List.nil_append]
  exact ⟨trivial, trivial, trivial,
    numericContrib_sparse lbls resources m.1 (metricsTable_routed m hm) hnd⟩

/-- Witness for `clusterResources_routing`: a qemu record carrying `maxmem`
and `mem` but no `netin` routes one sample into each memory family and none
into the network-receive family. -/
theorem clusterResources_routing_witness :
    clusterResourcesCollect
      [[("type", Value.str "qemu"), ("id", Value.str "qemu/100"),
        ("node", Value.str "pve1"), ("status", Value.str "running"),
        ("maxmem", Value.int 1073741824), ("mem", Value.int 536870912)]] =
      Except.ok
        (METRICS_TABLE.map (fun m =>
          { name := m.2.1
            help := m.2.2
            labels := KNOWN_LABEL_KEYS
            samples := sparseSamples
              (fun _ => [("id", some (Value.str "qemu/100")), ("name", none),
                ("node", some (Value.str "pve1")), ("template", none),
                ("type", some (Value.str "qemu"))])
              [[("type", Value.str "qemu"), ("id", Value.str "qemu/100"),
                ("node", Value.str "pve1"), ("status", Value.str "running"),
                ("maxmem", Value.int 1073741824),
                ("mem", Value.int 536870912)]] m.1 }) ++
         [{ guestInit with
            samples := guestContrib
              (fun _ => [("id", some (Value.str "qemu/100")), ("name", none),
                ("node", some (Value.str "pve1")), ("template", none),
                ("type", some (Value.str "qemu"))])
              [[("type", Value.str "qemu"), ("id", Value.str "qemu/100"),
                ("node", Value.str "pve1"), ("status", Value.str "running"),
                ("maxmem", Value.int 1073741824),
                ("mem", Value.int 536870912)]] },
          { storageInit with
            samples := storageContrib
              (fun _ => [("id", some (Value.str "qemu/100")), ("name", none),
                ("node", some (Value.str "pve1")), ("template", none),
                ("type", some (Value.str "qemu"))])
              [[("type", Value.str "qemu"), ("id", Value.str "qemu/100"),
                ("node", Value.str "pve1"), ("status", Value.str "running"),
                ("maxmem", Value.int 1073741824),
                ("mem", Value.int 536870912)]] }]) ∧
    sparseSamples
      (fun _ => [("id", some (Value.str "qemu/100")), ("name", none),
        ("node", some (Value.str "pve1")), ("template", none),
        ("type", some (Value.str "qemu"))])
      [[("type", Value.str "qemu"), ("id", Value.str "qemu/100"),
        ("node", Value.str "pve1"), ("status", Value.str "running"),
        ("maxmem", Value.int 1073741824), ("mem", Value.int 536870912)]]
      "netin" = [] ∧
    sparseSamples
      (fun _ => [("id", some (Value.str "qemu/100")), ("name", none),
        ("node", some (Value.str "pve1")), ("template", none),
        ("type", some (Value.str "qemu"))])
      [[("type", Value.str "qemu"), ("id", Value.str "qemu/100"),
        ("node", Value.str "pve1"), ("status", Value.str "running"),
        ("maxmem", Value.int 1073741824), ("mem", Value.int 536870912)]]
      "mem" =
      [([Value.str "qemu/100", Value.str "", Value.str "pve1", Value.str "",
        Value.str "qemu"], Value.int 536870912)] := by
  refine ⟨?_, rfl, rfl⟩
  exact clusterResources_routing
    [[("type", Value.str "qemu"), ("id", Value.str "qemu/100"),
      ("node", Value.str "pve1"), ("status", Value.str "running"),
      ("maxmem", Value.int 1073741824), ("mem", Value.int 536870912)]]
    (fun _ => [("id", some (Value.str "qemu/100")), ("name", none),
      ("node", some (Value.str "pve1")), ("template", none),
      ("type", some (Value.str "qemu"))])
    (fun r hr => by
      rcases List.mem_cons.mp hr with rfl | hr
      · rfl
      · exact absurd hr (List.not_mem_nil _))
    (fun r hr => by
      rcases List.mem_cons.mp hr with rfl | hr
      · decide
      · exact absurd hr (List.not_mem_nil _))

/-- **C6**: on a batch of cluster-status records (each carrying `type`;
node records carrying `online`; cluster records carrying a string `name`;
records of one kind sharing one post-strip field set), the node and cluster
info collectors derive the label schema from the first matching record
after removing the bookkeeping fields (`type` and `online` for nodes;
`type`, and `name` after rewriting `id := "cluster/" + name`, for
clusters), emit exactly one sample valued `1` per matching record under
that schema, and emit no family at all when no matching record exists. -/
theorem schema_collectors_spec (status : List Record)
    (hty : ∀ e ∈ status, hasKey e "type" = true)
    (hon : ∀ e ∈ nodesOf status, hasKey e "online" = true)
    (hnsch : ∀ e ∈ nodesOf status,
      keysOf (stripNode e) =
        keysOf (stripNode ((nodesOf status).headD [])))
    (hcn : ∀ e ∈ clustersOf status,
      ∃ s, getKey e "name" = some (Value.str s))
    (hcsch : ∀ e ∈ clustersOf status,
      keysOf (stripCluster e) =
        keysOf (stripCluster ((clustersOf status).headD []))) :
    clusterNodeCollect status =
      Except.ok
        (match nodesOf status with
         | [] => []
         | n0 :: _ =>
           [{ name := "pve_node_info"
              help := "Node info"
              labels := keysOf (stripNode n0)
              samples := (nodesOf status).map (fun n =>
                ((keysOf (stripNode n0)).map (fun k =>
                  Value.str (pyStr (valD (stripNode n) k))),
                 Value.int 1)) }]) ∧
    clusterInfoCollect status =
      Except.ok
        (match clustersOf status with
         | [] => []
         | c0 :: _ =>
           [{ name := "pve_cluster_info"
              help := "Cluster info"
              labels := keysOf (stripCluster c0)
              samples := (clustersOf status).map (fun c =>
                ((keysOf (stripCluster c0)).map (fun k =>
                  Value.str (pyStr (valD (stripCluster c) k))),
                 Value.int 1)) }]) :=
  ⟨clusterNodeCollect_spec status hty hon hnsch,
   clusterInfoCollect_spec status hty hcn hcsch⟩

/-- Witness for `schema_collectors_spec`: a cluster-status batch with one
cluster record and one node record; the node family's schema is the node
record's fields minus `type`/`online`, the cluster family's schema has the
rewritten `id` and no `name`, each with one sample valued `1`. -/
theorem schema_collectors_spec_witness :
    clusterNodeCollect
      [[("type", Value.str "cluster"), ("id", Value.str "cluster"),
        ("name", Value.str "pvec"), ("nodes", Value.int 2),
        ("quorate", Value.int 1), ("version", Value.int 2)],
       [("type", Value.str "node"), ("id", Value.str "node/pve1"),
        ("name", Value.str "pve1"), ("online", Value.int 1),
        ("ip", Value.str "10.0.0.1"), ("local", Value.int 1),
        ("nodeid", Value.int 0), ("level", Value.str "c")]] =
      Except.ok
        [{ name := "pve_node_info"
           help := "Node info"
           labels := ["id", "name", "ip", "local", "nodeid", "level"]
           samples := [([Value.str "node/pve1", Value.str "pve1",
             Value.str "10.0.0.1", Value.str "1", Value.str "0",
             Value.str "c"], Value.int 1)] }] ∧
    clusterInfoCollect
      [[("type", Value.str "cluster"), ("id", Value.str "cluster"),
        ("name", Value.str "pvec"), ("nodes", Value.int 2),
        ("quorate", Value.int 1), ("version", Value.int 2)],
       [("type", Value.str "node"), ("id", Value.str "node/pve1"),
        ("name", Value.str "pve1"), ("online", Value.int 1),
        ("ip", Value.str "10.0.0.1"), ("local", Value.int 1),
        ("nodeid", Value.int 0), ("level", Value.str "c")]] =
      Except.ok
        [{ name := "pve_cluster_info"
           help := "Cluster info"
           labels := ["id", "nodes", "quorate", "version"]
           samples := [([Value.str "cluster/pvec", Value.str "2",
             Value.str "1", Value.str "2"], Value.int 1)] }] := by
  have h := schema_collectors_spec
    [[("type", Value.str "cluster"), ("id", Value.str "cluster"),
      ("name", Value.str "pvec"), ("nodes", Value.int 2),
      ("quorate", Value.int 1), ("version", Value.int 2)],
     [("type", Value.str "node"), ("id", Value.str "node/pve1"),
      ("name", Value.str "pve1"), ("online", Value.int 1),
      ("ip", Value.str "10.0.0.1"), ("local", Value.int 1),
      ("nodeid", Value.int 0), ("level", Value.str "c")]]
    (by decide) (by decide) (by decide)
    (fun e he => by
      have he' : e = [("type", Value.str "cluster"),
          ("id", Value.str "cluster"), ("name", Value.str "pvec"),
          ("nodes", Value.int 2), ("quorate", Value.int 1),
          ("version", Value.int 2)] := by
        have e1 : clustersOf
            [[("type", Value.str "cluster"), ("id", Value.str "cluster"),
              ("name", Value.str "pvec"), ("nodes", Value.int 2),
              ("quorate", Value.int 1), ("version", Value.int 2)],
             [("type", Value.str "node"), ("id", Value.str "node/pve1"),
              ("name", Value.str "pve1"), ("online", Value.int 1),
              ("ip", Value.str "10.0.0.1"), ("local", Value.int 1),
              ("nodeid", Value.int 0), ("level", Value.str "c")]] =
            [[("type", Value.str "cluster"), ("id", Value.str "cluster"),
              ("name", Value.str "pvec"), ("nodes", Value.int 2),
              ("quorate", Value.int 1), ("version", Value.int 2)]] := rfl
        rw [e1] at he
        rcases List.mem_cons.mp he with rfl | he2
        · rfl
        · exact absurd he2 (List.not_mem_nil _)
      rw [he']
      exact ⟨"pvec", rfl⟩)
    (by decide)
  exact ⟨h.1, h.2⟩

/-- **C4 counterexample**: the claim says no core operation errors solely
because a field is absent and in particular that the info collectors
succeed on records lacking the fields they strip or rewrite; but
`del node['online']` raises `KeyError` on a node record without `online`,
and `cluster['name']` raises `KeyError` on a cluster record without
`name`. -/
theorem missing_field_error_cex :
    clusterNodeCollect [[("type", Value.str "node")]] =
      Except.error "KeyError: online" ∧
    clusterInfoCollect [[("type", Value.str "cluster")]] =
      Except.error "KeyError: name" :=
  ⟨rfl, rfl⟩

/-- **C4 (amended)**: absent label fields downcast to the empty string, and
absent numeric fields contribute no sample and no error — the resources
collector succeeds on any record list whose labels derive; but the node
info collector raises `KeyError` on a node record lacking `online`, and the
cluster info collector raises `KeyError` on a cluster record lacking
`name`. -/
theorem missing_fields_amended :
    downcast_label_value none = "" ∧
    (∀ (resources : List Record) (lbls : Record → Labels),
      (∀ r ∈ resources,
        get_known_labels r KNOWN_LABEL_KEYS = Except.ok (lbls r)) →
      Except.isOk (clusterResourcesCollect resources) = true) ∧
    clusterNodeCollect
      [[("type", Value.str "node"), ("id", Value.str "node/pve1")]] =
      Except.error "KeyError: online" ∧
    clusterInfoCollect
      [[("type", Value.str "cluster"), ("id", Value.str "cluster")]] =
      Except.error "KeyError: name" := by
  refine ⟨rfl, ?_, rfl, rfl⟩
  intro resources lbls h1
  simp only [clusterResourcesCollect]
  rw [show ((numInit, guestInit, storageInit) :
      List (String × GaugeMetricFamily) × GaugeMetricFamily ×
        GaugeMetricFamily) =
      (numState (fun _ => []), { guestInit with samples := [] },
        { storageInit with samples := [] }) from rfl]
  rw [resourcesFold lbls resources (fun _ => []) [] [] h1]
  rfl

/-- Witness for `missing_fields_amended`: a qemu record carrying none of the
routed numeric fields still collects without error. -/
theorem missing_fields_amended_witness :
    downcast_label_value none = "" ∧
    Except.isOk (clusterResourcesCollect
      [[("type", Value.str "qemu"), ("id", Value.str "qemu/100")]]) =
      true := by
  refine ⟨missing_fields_amended.1, ?_⟩
  exact missing_fields_amended.2.1
    [[("type", Value.str "qemu"), ("id", Value.str "qemu/100")]]
    (fun _ => [("id", some (Value.str "qemu/100")), ("name", none),
      ("node", none), ("template", none),
      ("type", some (Value.str "qemu"))])
    (fun r hr => by
      rcases List.mem_cons.mp hr with rfl | hr
      · rfl
      · exact absurd hr (List.not_mem_nil _))

end PveExporter
